import Mathlib

/-!
Verification of the paceline core spec parser.

This file shallowly embeds `packages/core/src/schema.ts` and
`packages/core/src/parse.ts`. YAML parsing is done by the external `yaml`
package, so the embedded `parseAgentSpec` takes the outcome of that parse
(`Except String JsValue`) as its input, where `JsValue` models the
JavaScript values the `yaml` parser can produce (JavaScript numbers are
modelled as integers; no validated field is numeric).

The zod schemas are embedded as validation functions returning either the
parsed value or the list of zod issues, following zod v3 semantics:
objects in default mode strip unknown keys and collect the issues of every
field in shape-declaration order; unions try options in order and report a
single `Invalid input` issue when all options fail; arrays validate every
element and collect all issues with the element index on the path; string
checks run in order and each failing check contributes one issue;
`invalid_type` issues with `undefined` input render as `Required`.
-/

/-- A JavaScript value as produced by the `yaml` package's `parse`. -/
inductive JsValue where
  | nullV
  | undefinedV
  | str (s : String)
  | num (n : Int)
  | bool (b : Bool)
  | arr (elems : List JsValue)
  | obj (fields : List (String × JsValue))

/-- JavaScript `typeof`, used by the mapping guard in `parseAgentSpec`
(note `typeof null === "object"` in JavaScript). -/
def jsTypeof : JsValue → String
  | .nullV => "object"
  | .undefinedV => "undefined"
  | .str _ => "string"
  | .num _ => "number"
  | .bool _ => "boolean"
  | .arr _ => "object"
  | .obj _ => "object"

/-- The condition `raw === null || raw === undefined || typeof raw !== "object"`
from `parse.ts` that throws `Expected a YAML mapping, ...`. -/
def guardRejects (v : JsValue) : Bool :=
  match v with
  | .nullV => true
  | .undefinedV => true
  | v => jsTypeof v != "object"

/-- zod's `getParsedType` (unlike JavaScript `typeof`, it distinguishes
`null` and `array`). -/
def zodTypeName : JsValue → String
  | .nullV => "null"
  | .undefinedV => "undefined"
  | .str _ => "string"
  | .num _ => "number"
  | .bool _ => "boolean"
  | .arr _ => "array"
  | .obj _ => "object"

mutual

/-- JavaScript template-literal stringification (`${v}`), as used by the
custom error map of the `model` enum in `schema.ts`. -/
def jsToTemplateString : JsValue → String
  | .nullV => "null"
  | .undefinedV => "undefined"
  | .str s => s
  | .num n => toString n
  | .bool b => if b then "true" else "false"
  | .arr xs => jsArrayToTemplateString xs
  | .obj _ => "[object Object]"

/-- `Array.prototype.toString` = `join(",")`; `null`/`undefined` elements
render as the empty string. -/
def jsArrayToTemplateString : List JsValue → String
  | [] => ""
  | [x] =>
      (match x with
       | .nullV => ""
       | .undefinedV => ""
       | x => jsToTemplateString x)
  | x :: xs =>
      (match x with
       | .nullV => ""
       | .undefinedV => ""
       | x => jsToTemplateString x) ++ "," ++ jsArrayToTemplateString xs

end

/-- `Array.prototype.join(sep)` for string arrays, as used by
`SUPPORTED_MODELS.join(", ")`, `issue.path.join(".")` and
`issues.map(...).join("\n")`. -/
def joinSep (sep : String) : List String → String
  | [] => ""
  | [x] => x
  | x :: xs => x ++ sep ++ joinSep sep xs

/-- `SUPPORTED_MODELS` from `schema.ts`. -/
def SUPPORTED_MODELS : List String :=
  ["gemini-2.5-flash", "gemini-2.5-pro", "gemini-3-flash-preview"]

/-- A zod issue, reduced to what `formatZodIssues` consumes: the path into
the document (array indices rendered in decimal, as `path.join(".")` would)
and the message. -/
structure ZodIssue where
  path : List String
  message : String
deriving DecidableEq

/-- zod's `util.joinValues` rendering of enum options, e.g.
`'read' | 'write'`. -/
def zodJoinValues (vs : List String) : String :=
  joinSep " | " (vs.map fun s => "'" ++ s ++ "'")

/-- zod's default `invalid_type` message: `Required` when the input is
`undefined`, otherwise `Expected <expected>, received <parsedType>`. -/
def invalidTypeMsg (expected : String) (v : JsValue) : String :=
  match v with
  | .undefinedV => "Required"
  | v => "Expected " ++ expected ++ ", received " ++ zodTypeName v

/-- JavaScript property access `fields[key]`: `undefined` when absent. -/
def getField (fields : List (String × JsValue)) (key : String) : JsValue :=
  match fields.lookup key with
  | some v => v
  | none => .undefinedV

/-- The issues of a failed validation (empty for a success). -/
def issuesOf {α : Type} : Except (List ZodIssue) α → List ZodIssue
  | .ok _ => []
  | .error es => es

/-- Re-root a field's issues under the field's key, as zod does when
validating the fields of an object (or the elements of an array). -/
def underKey (key : String) (issues : List ZodIssue) : List ZodIssue :=
  issues.map fun i => ⟨key :: i.path, i.message⟩

/-- `z.string().min(1)` with zod's default `too_small` message, as used for
`server`, `name` (of a local tool), `principal` and `skills` entries. -/
def parseMin1String (v : JsValue) : Except (List ZodIssue) String :=
  match v with
  | .str s =>
      if s.length < 1 then
        .error [⟨[], "String must contain at least 1 character(s)"⟩]
      else .ok s
  | v => .error [⟨[], invalidTypeMsg "string" v⟩]

/-- `z.enum(values)` with zod's default messages. -/
def enumField (values : List String) (v : JsValue) : Except (List ZodIssue) String :=
  match v with
  | .str s =>
      if values.contains s then .ok s
      else
        .error [⟨[], "Invalid enum value. Expected " ++ zodJoinValues values ++
          ", received '" ++ s ++ "'"⟩]
  | v => .error [⟨[], invalidTypeMsg (zodJoinValues values) v⟩]

/-- Translation of the regex `/^[a-z0-9][a-z0-9-]*$/` character class for
the first character. -/
def isLowerAlnum (c : Char) : Bool :=
  ('a' ≤ c && c ≤ 'z') || ('0' ≤ c && c ≤ '9')

/-- Character class `[a-z0-9-]` for the remaining characters. -/
def isNameRestChar (c : Char) : Bool :=
  isLowerAlnum c || c == '-'

/-- `/^[a-z0-9][a-z0-9-]*$/.test s`: non-empty, first character a lowercase
letter or digit, remaining characters lowercase letters, digits or hyphens. -/
def nameMatches (s : String) : Bool :=
  match s.data with
  | [] => false
  | c :: cs => isLowerAlnum c && cs.all isNameRestChar

/-- The `name` field schema of `agentSpecSchema`:
`z.string().min(1, "Agent name is required").regex(/^[a-z0-9][a-z0-9-]*$/, ...)`.
Both checks run and each failing check contributes one issue. -/
def nameField (v : JsValue) : Except (List ZodIssue) String :=
  match v with
  | .str s =>
      let msgs :=
        (if s.length < 1 then ["Agent name is required"] else []) ++
        (if nameMatches s then [] else
          ["Agent name must be lowercase alphanumeric with hyphens, starting with a letter or digit"])
      if msgs.isEmpty then .ok s else .error (msgs.map fun m => (⟨[], m⟩ : ZodIssue))
  | v => .error [⟨[], invalidTypeMsg "string" v⟩]

/-- The `description` field schema:
`z.string().min(1, "Agent description is required")`. -/
def descriptionField (v : JsValue) : Except (List ZodIssue) String :=
  match v with
  | .str s =>
      if s.length < 1 then .error [⟨[], "Agent description is required"⟩]
      else .ok s
  | v => .error [⟨[], invalidTypeMsg "string" v⟩]

/-- The message produced by the `model` enum's custom `errorMap`:
`Unknown model "${ctx.data}". Supported: ${SUPPORTED_MODELS.join(", ")}`.
The custom map applies to every issue the enum raises. -/
def unknownModelMessage (v : JsValue) : String :=
  "Unknown model \"" ++ jsToTemplateString v ++ "\". Supported: " ++
    joinSep ", " SUPPORTED_MODELS

/-- The `model` field schema: `z.enum(SUPPORTED_MODELS, { errorMap ... })`. -/
def modelField (v : JsValue) : Except (List ZodIssue) String :=
  match v with
  | .str s =>
      if SUPPORTED_MODELS.contains s then .ok s
      else .error [⟨[], unknownModelMessage (.str s)⟩]
  | v => .error [⟨[], unknownModelMessage v⟩]

/-- A parsed tool entry: the two variants of `toolSchema`'s union. -/
inductive ToolEntry where
  | mcpTool (server : String) (access : String)
  | localTool (name : String) (access : String)
deriving DecidableEq

/-- A parsed ACL entry. -/
structure AclEntry where
  principal : String
  role : String
deriving DecidableEq

/-- A parsed agent spec (`z.infer<typeof agentSpecSchema>`). -/
structure AgentSpec where
  name : String
  model : String
  description : String
  tools : Option (List ToolEntry)
  skills : Option (List String)
  acl : Option (List AclEntry)
deriving DecidableEq

/-- `mcpToolSchema = z.object({ server: z.string().min(1), access: z.enum(["read", "write"]) })`. -/
def mcpToolSchema (v : JsValue) : Except (List ZodIssue) ToolEntry :=
  match v with
  | .obj fields =>
      match parseMin1String (getField fields "server"),
            enumField ["read", "write"] (getField fields "access") with
      | .ok s, .ok a => .ok (.mcpTool s a)
      | rS, rA => .error (underKey "server" (issuesOf rS) ++ underKey "access" (issuesOf rA))
  | v => .error [⟨[], invalidTypeMsg "object" v⟩]

/-- `localToolSchema = z.object({ name: z.string().min(1), access: z.enum(["read", "write"]) })`. -/
def localToolSchema (v : JsValue) : Except (List ZodIssue) ToolEntry :=
  match v with
  | .obj fields =>
      match parseMin1String (getField fields "name"),
            enumField ["read", "write"] (getField fields "access") with
      | .ok n, .ok a => .ok (.localTool n a)
      | rN, rA => .error (underKey "name" (issuesOf rN) ++ underKey "access" (issuesOf rA))
  | v => .error [⟨[], invalidTypeMsg "object" v⟩]

/-- `toolSchema = z.union([mcpToolSchema, localToolSchema])`: options are
tried in order; when all fail zod reports one `invalid_union` issue with
default message `Invalid input`. -/
def toolSchema (v : JsValue) : Except (List ZodIssue) ToolEntry :=
  match mcpToolSchema v with
  | .ok t => .ok t
  | .error _ =>
      match localToolSchema v with
      | .ok t => .ok t
      | .error _ => .error [⟨[], "Invalid input"⟩]

/-- `aclEntrySchema = z.object({ principal: z.string().min(1), role: z.enum(["execute", "read"]) })`. -/
def aclEntrySchema (v : JsValue) : Except (List ZodIssue) AclEntry :=
  match v with
  | .obj fields =>
      match parseMin1String (getField fields "principal"),
            enumField ["execute", "read"] (getField fields "role") with
      | .ok p, .ok r => .ok ⟨p, r⟩
      | rP, rR => .error (underKey "principal" (issuesOf rP) ++ underKey "role" (issuesOf rR))
  | v => .error [⟨[], invalidTypeMsg "object" v⟩]

/-- Element-wise validation of an array starting at index `i`, collecting
every element's issues (with the element index on the path) and the parsed
values of the succeeding elements. -/
def arrayElems {α : Type} (p : JsValue → Except (List ZodIssue) α) :
    Nat → List JsValue → List ZodIssue × List α
  | _, [] => ([], [])
  | i, x :: xs =>
      let rest := arrayElems p (i + 1) xs
      match p x with
      | .ok a => (rest.1, a :: rest.2)
      | .error es => (underKey (toString i) es ++ rest.1, rest.2)

/-- `z.array(elem)`: every element is validated and all issues are
collected; the array fails if any element fails. -/
def arrayField {α : Type} (p : JsValue → Except (List ZodIssue) α) (v : JsValue) :
    Except (List ZodIssue) (List α) :=
  match v with
  | .arr xs =>
      let r := arrayElems p 0 xs
      if r.1.isEmpty then .ok r.2 else .error r.1
  | v => .error [⟨[], invalidTypeMsg "array" v⟩]

/-- `.optional()`: `undefined` parses to `none`; anything else (including
`null`) goes to the inner schema. -/
def optionalField {α : Type} (p : JsValue → Except (List ZodIssue) α) (v : JsValue) :
    Except (List ZodIssue) (Option α) :=
  match v with
  | .undefinedV => .ok none
  | v => (p v).map some

/-- `agentSpecSchema` from `schema.ts`: an object schema in zod's default
(strip) mode — unknown keys are dropped without an issue, the six declared
fields are validated in shape order and all their issues are collected. -/
def agentSpecSchema (v : JsValue) : Except (List ZodIssue) AgentSpec :=
  match v with
  | .obj fields =>
      match nameField (getField fields "name"),
            modelField (getField fields "model"),
            descriptionField (getField fields "description"),
            optionalField (arrayField toolSchema) (getField fields "tools"),
            optionalField (arrayField parseMin1String) (getField fields "skills"),
            optionalField (arrayField aclEntrySchema) (getField fields "acl") with
      | .ok n, .ok m, .ok d, .ok t, .ok sk, .ok a => .ok ⟨n, m, d, t, sk, a⟩
      | rN, rM, rD, rT, rS, rA =>
          .error (underKey "name" (issuesOf rN) ++ underKey "model" (issuesOf rM) ++
            underKey "description" (issuesOf rD) ++ underKey "tools" (issuesOf rT) ++
            underKey "skills" (issuesOf rS) ++ underKey "acl" (issuesOf rA))
  | v => .error [⟨[], invalidTypeMsg "object" v⟩]

/-- `SpecParseError` from `parse.ts`, carrying its `issues` array. -/
structure SpecParseError where
  issues : List String
deriving DecidableEq

/-- The error message built in the `SpecParseError` constructor:
`Invalid agent spec:\n${issues.map((i) => `  - ${i}`).join("\n")}`. -/
def SpecParseError.message (e : SpecParseError) : String :=
  "Invalid agent spec:\n" ++ joinSep "\n" (e.issues.map fun i => "  - " ++ i)

/-- One line of `formatZodIssues`:
`${path.length > 0 ? path.join(".") : "(root)"}: ${message}`. -/
def formatZodIssue (i : ZodIssue) : String :=
  (if 0 < i.path.length then joinSep "." i.path else "(root)") ++ ": " ++ i.message

/-- `formatZodIssues` from `parse.ts`. -/
def formatZodIssues (issues : List ZodIssue) : List String :=
  issues.map formatZodIssue

/-- `parseAgentSpec` from `parse.ts`, embedded over the outcome of the
external `parseYaml` call: a thrown `yaml` parse error (as its message
string) or the parsed document. -/
def parseAgentSpec (yamlResult : Except String JsValue) : Except SpecParseError AgentSpec :=
  match yamlResult with
  | .error e => .error ⟨["YAML syntax error: " ++ e]⟩
  | .ok raw =>
      if guardRejects raw then
        .error ⟨["Expected a YAML mapping, got a scalar or empty document"]⟩
      else
        match agentSpecSchema raw with
        | .ok spec => .ok spec
        | .error zs => .error ⟨formatZodIssues zs⟩

/-- Whether the first list leads the second (executable `String.startsWith`
on character lists). -/
def listLeads : List Char → List Char → Bool
  | [], _ => true
  | _ :: _, [] => false
  | c :: cs, d :: ds => c == d && listLeads cs ds

/-- The three recognized principal patterns. Modelled from the spec's words
(§3 AclEntry / §4.3 stage 5: `user:<id>`, `group:<name>`,
`serviceaccount:<name>`) for comparison with the code, which is why it has
no counterpart in `schema.ts`. -/
def specPrincipalPattern (s : String) : Bool :=
  listLeads "user:".data s.data || listLeads "group:".data s.data ||
    listLeads "serviceaccount:".data s.data

/-- JavaScript `access === "read" || access === "write"` on a raw value:
the only values the `access` enum of either tool variant accepts. -/
def isValidAccess (v : JsValue) : Bool :=
  match v with
  | .str s => s == "read" || s == "write"
  | _ => false

/-! ## Basic string and list facts used by the theorems -/

theorem strData_append (a b : String) : (a ++ b).data = a.data ++ b.data := by
  cases a
  cases b
  rfl

theorem str_eq_empty_iff (s : String) : s = "" ↔ s.data = [] := by
  rw [String.ext_iff]

theorem str_length_lt_one_iff (s : String) : s.length < 1 ↔ s = "" := by
  rw [str_eq_empty_iff]
  show s.data.length < 1 ↔ s.data = []
  rw [Nat.lt_one_iff, List.length_eq_zero]

/-- `needle` occurs (contiguously) inside `hay`. -/
def strContains (hay needle : String) : Prop :=
  ∃ pre post : List Char, hay.data = pre ++ needle.data ++ post

/-! ## Facts about the individual field validators -/

theorem parseMin1String_ok {s : String} (h : s ≠ "") : parseMin1String (.str s) = .ok s := by
  have h1 : ¬ s.length < 1 := by
    rw [str_length_lt_one_iff]
    exact h
  simp [parseMin1String, h1]

theorem nameMatches_ne_empty {s : String} (h : nameMatches s = true) : s ≠ "" := by
  intro he
  subst he
  exact absurd h (by decide)

theorem nameField_ok {s : String} (h : nameMatches s = true) : nameField (.str s) = .ok s := by
  have h1 : ¬ s.length < 1 := by
    rw [str_length_lt_one_iff]
    exact nameMatches_ne_empty h
  simp [nameField, h1, h]

theorem nameField_ok_inv {v : JsValue} {s : String} (h : nameField v = .ok s) :
    v = .str s ∧ nameMatches s = true := by
  cases v with
  | str s' =>
      by_cases hm : nameMatches s'
      · have h1 : ¬ s'.length < 1 := by
          rw [str_length_lt_one_iff]
          exact nameMatches_ne_empty hm
        rw [nameField_ok hm] at h
        cases h
        exact ⟨rfl, hm⟩
      · simp [nameField, hm] at h
  | nullV => simp [nameField] at h
  | undefinedV => simp [nameField] at h
  | num n => simp [nameField] at h
  | bool b => simp [nameField] at h
  | arr xs => simp [nameField] at h
  | obj fs => simp [nameField] at h

theorem descriptionField_ok {d : String} (h : d ≠ "") : descriptionField (.str d) = .ok d := by
  have h1 : ¬ d.length < 1 := by
    rw [str_length_lt_one_iff]
    exact h
  simp [descriptionField, h1]

theorem modelField_err {m : String} (h : SUPPORTED_MODELS.contains m = false) :
    modelField (.str m) = .error [⟨[], unknownModelMessage (.str m)⟩] := by
  have h' : m ∉ SUPPORTED_MODELS := by simpa using h
  simp [modelField, h']

theorem modelField_ok_mem {v : JsValue} {m : String} (h : modelField v = .ok m) :
    m ∈ SUPPORTED_MODELS := by
  cases v with
  | str s =>
      by_cases hc : SUPPORTED_MODELS.contains s
      · simp only [modelField, if_pos hc] at h
        cases h
        simpa using hc
      · have hc' : s ∉ SUPPORTED_MODELS := by simpa using hc
        simp [modelField, hc'] at h
  | nullV => simp [modelField] at h
  | undefinedV => simp [modelField] at h
  | num n => simp [modelField] at h
  | bool b => simp [modelField] at h
  | arr xs => simp [modelField] at h
  | obj fs => simp [modelField] at h

theorem nameField_error_ne_nil {v : JsValue} {es : List ZodIssue}
    (h : nameField v = .error es) : es ≠ [] := by
  cases v with
  | str s =>
      by_cases hl : s.length < 1 <;> by_cases hm : nameMatches s <;>
        simp [nameField, hl, hm] at h
      all_goals subst h
      all_goals simp
  | nullV => cases h; simp
  | undefinedV => cases h; simp
  | num n => cases h; simp
  | bool b => cases h; simp
  | arr xs => cases h; simp
  | obj fs => cases h; simp

theorem modelField_error_ne_nil {v : JsValue} {es : List ZodIssue}
    (h : modelField v = .error es) : es ≠ [] := by
  cases v with
  | str s =>
      by_cases hc : s ∈ SUPPORTED_MODELS <;>
        simp [modelField, hc] at h
      all_goals subst h
      all_goals simp
  | nullV => cases h; simp
  | undefinedV => cases h; simp
  | num n => cases h; simp
  | bool b => cases h; simp
  | arr xs => cases h; simp
  | obj fs => cases h; simp

theorem descriptionField_error_ne_nil {v : JsValue} {es : List ZodIssue}
    (h : descriptionField v = .error es) : es ≠ [] := by
  cases v with
  | str s =>
      simp only [descriptionField] at h
      split at h
      · cases h; simp
      · simp at h
  | nullV => cases h; simp
  | undefinedV => cases h; simp
  | num n => cases h; simp
  | bool b => cases h; simp
  | arr xs => cases h; simp
  | obj fs => cases h; simp

theorem arrayField_error_ne_nil {α : Type} {p : JsValue → Except (List ZodIssue) α}
    {v : JsValue} {es : List ZodIssue} (h : arrayField p v = .error es) : es ≠ [] := by
  cases v with
  | arr xs =>
      simp only [arrayField] at h
      split at h
      · simp at h
      · rename_i hne
        cases h
        simpa [List.isEmpty_iff] using hne
  | nullV => cases h; simp
  | undefinedV => cases h; simp
  | str s => cases h; simp
  | num n => cases h; simp
  | bool b => cases h; simp
  | obj fs => cases h; simp

theorem optionalField_error_ne_nil {α : Type} {p : JsValue → Except (List ZodIssue) α}
    {v : JsValue} {es : List ZodIssue}
    (hinner : ∀ v' es', p v' = .error es' → es' ≠ [])
    (h : optionalField p v = .error es) : es ≠ [] := by
  cases v with
  | undefinedV => simp [optionalField] at h
  | nullV =>
      simp only [optionalField] at h
      cases hp : p JsValue.nullV with
      | ok a => rw [hp] at h; simp [Except.map] at h
      | error es' => rw [hp] at h; simp only [Except.map] at h; cases h; exact hinner _ _ hp
  | str s =>
      simp only [optionalField] at h
      cases hp : p (JsValue.str s) with
      | ok a => rw [hp] at h; simp [Except.map] at h
      | error es' => rw [hp] at h; simp only [Except.map] at h; cases h; exact hinner _ _ hp
  | num n =>
      simp only [optionalField] at h
      cases hp : p (JsValue.num n) with
      | ok a => rw [hp] at h; simp [Except.map] at h
      | error es' => rw [hp] at h; simp only [Except.map] at h; cases h; exact hinner _ _ hp
  | bool b =>
      simp only [optionalField] at h
      cases hp : p (JsValue.bool b) with
      | ok a => rw [hp] at h; simp [Except.map] at h
      | error es' => rw [hp] at h; simp only [Except.map] at h; cases h; exact hinner _ _ hp
  | arr xs =>
      simp only [optionalField] at h
      cases hp : p (JsValue.arr xs) with
      | ok a => rw [hp] at h; simp [Except.map] at h
      | error es' => rw [hp] at h; simp only [Except.map] at h; cases h; exact hinner _ _ hp
  | obj fs =>
      simp only [optionalField] at h
      cases hp : p (JsValue.obj fs) with
      | ok a => rw [hp] at h; simp [Except.map] at h
      | error es' => rw [hp] at h; simp only [Except.map] at h; cases h; exact hinner _ _ hp

/-- The accumulated issue list of the six fields of `agentSpecSchema`, in
shape-declaration order. -/
def specFieldIssues (fields : List (String × JsValue)) : List ZodIssue :=
  underKey "name" (issuesOf (nameField (getField fields "name"))) ++
  underKey "model" (issuesOf (modelField (getField fields "model"))) ++
  underKey "description" (issuesOf (descriptionField (getField fields "description"))) ++
  underKey "tools" (issuesOf (optionalField (arrayField toolSchema) (getField fields "tools"))) ++
  underKey "skills" (issuesOf (optionalField (arrayField parseMin1String) (getField fields "skills"))) ++
  underKey "acl" (issuesOf (optionalField (arrayField aclEntrySchema) (getField fields "acl")))

theorem agentSpecSchema_obj_cases (fields : List (String × JsValue)) :
    (∃ spec : AgentSpec, agentSpecSchema (.obj fields) = .ok spec ∧
      nameField (getField fields "name") = .ok spec.name ∧
      modelField (getField fields "model") = .ok spec.model ∧
      descriptionField (getField fields "description") = .ok spec.description ∧
      optionalField (arrayField toolSchema) (getField fields "tools") = .ok spec.tools ∧
      optionalField (arrayField parseMin1String) (getField fields "skills") = .ok spec.skills ∧
      optionalField (arrayField aclEntrySchema) (getField fields "acl") = .ok spec.acl)
    ∨ (∃ es, agentSpecSchema (.obj fields) = .error es ∧ es ≠ []) := by
  cases hN : nameField (getField fields "name") with
  | error esN =>
      right
      refine ⟨specFieldIssues fields, ?_, ?_⟩
      · simp [agentSpecSchema, specFieldIssues, hN, issuesOf]
      · have hne := nameField_error_ne_nil hN
        simp [specFieldIssues, underKey, hne, issuesOf, hN]
  | ok n =>
  cases hM : modelField (getField fields "model") with
  | error esM =>
      right
      refine ⟨specFieldIssues fields, ?_, ?_⟩
      · simp [agentSpecSchema, specFieldIssues, hN, hM, issuesOf]
      · have hne := modelField_error_ne_nil hM
        simp [specFieldIssues, underKey, hne, issuesOf, hN, hM]
  | ok m =>
  cases hD : descriptionField (getField fields "description") with
  | error esD =>
      right
      refine ⟨specFieldIssues fields, ?_, ?_⟩
      · simp [agentSpecSchema, specFieldIssues, hN, hM, hD, issuesOf]
      · have hne := descriptionField_error_ne_nil hD
        simp [specFieldIssues, underKey, hne, issuesOf, hN, hM, hD]
  | ok d =>
  cases hT : optionalField (arrayField toolSchema) (getField fields "tools") with
  | error esT =>
      right
      refine ⟨specFieldIssues fields, ?_, ?_⟩
      · simp [agentSpecSchema, specFieldIssues, hN, hM, hD, hT, issuesOf]
      · have hne := optionalField_error_ne_nil (fun _ _ hx => arrayField_error_ne_nil hx) hT
        simp [specFieldIssues, underKey, hne, issuesOf, hN, hM, hD, hT]
  | ok t =>
  cases hS : optionalField (arrayField parseMin1String) (getField fields "skills") with
  | error esS =>
      right
      refine ⟨specFieldIssues fields, ?_, ?_⟩
      · simp [agentSpecSchema, specFieldIssues, hN, hM, hD, hT, hS, issuesOf]
      · have hne := optionalField_error_ne_nil (fun _ _ hx => arrayField_error_ne_nil hx) hS
        simp [specFieldIssues, underKey, hne, issuesOf, hN, hM, hD, hT, hS]
  | ok sk =>
  cases hA : optionalField (arrayField aclEntrySchema) (getField fields "acl") with
  | error esA =>
      right
      refine ⟨specFieldIssues fields, ?_, ?_⟩
      · simp [agentSpecSchema, specFieldIssues, hN, hM, hD, hT, hS, hA, issuesOf]
      · have hne := optionalField_error_ne_nil (fun _ _ hx => arrayField_error_ne_nil hx) hA
        simp [specFieldIssues, underKey, hne, issuesOf, hN, hM, hD, hT, hS, hA]
  | ok a =>
      left
      refine ⟨⟨n, m, d, t, sk, a⟩, ?_, rfl, rfl, rfl, rfl, rfl, rfl⟩
      simp [agentSpecSchema, hN, hM, hD, hT, hS, hA]

theorem agentSpecSchema_error_ne_nil {v : JsValue} {es : List ZodIssue}
    (h : agentSpecSchema v = .error es) : es ≠ [] := by
  cases v with
  | obj fields =>
      rcases agentSpecSchema_obj_cases fields with ⟨spec, hok, _⟩ | ⟨es', herr, hne⟩
      · rw [hok] at h
        simp at h
      · rw [herr] at h
        cases h
        exact hne
  | nullV => cases h; simp
  | undefinedV => cases h; simp
  | str s => cases h; simp
  | num n => cases h; simp
  | bool b => cases h; simp
  | arr xs => cases h; simp

theorem agentSpecSchema_ok_inv {v : JsValue} {spec : AgentSpec}
    (h : agentSpecSchema v = .ok spec) :
    ∃ fields, v = .obj fields ∧
      nameField (getField fields "name") = .ok spec.name ∧
      modelField (getField fields "model") = .ok spec.model ∧
      descriptionField (getField fields "description") = .ok spec.description ∧
      optionalField (arrayField toolSchema) (getField fields "tools") = .ok spec.tools ∧
      optionalField (arrayField parseMin1String) (getField fields "skills") = .ok spec.skills ∧
      optionalField (arrayField aclEntrySchema) (getField fields "acl") = .ok spec.acl := by
  cases v with
  | obj fields =>
      rcases agentSpecSchema_obj_cases fields with ⟨spec', hok, h1, h2, h3, h4, h5, h6⟩ | ⟨es', herr, _⟩
      · rw [hok] at h
        cases h
        exact ⟨fields, rfl, h1, h2, h3, h4, h5, h6⟩
      · rw [herr] at h
        simp at h
  | nullV => simp [agentSpecSchema] at h
  | undefinedV => simp [agentSpecSchema] at h
  | str s => simp [agentSpecSchema] at h
  | num n => simp [agentSpecSchema] at h
  | bool b => simp [agentSpecSchema] at h
  | arr xs => simp [agentSpecSchema] at h

/-! ## Facts about `parseAgentSpec` as a whole -/

theorem parseAgentSpec_ok_inv {r : Except String JsValue} {spec : AgentSpec}
    (h : parseAgentSpec r = .ok spec) :
    ∃ raw, r = .ok raw ∧ guardRejects raw = false ∧ agentSpecSchema raw = .ok spec := by
  cases r with
  | error e => simp [parseAgentSpec] at h
  | ok raw =>
      by_cases hg : guardRejects raw = true
      · simp [parseAgentSpec, hg] at h
      · cases hs : agentSpecSchema raw with
        | ok s =>
            simp [parseAgentSpec, hg, hs] at h
            exact ⟨raw, rfl, by simpa using hg, by rw [hs, h]⟩
        | error zs => simp [parseAgentSpec, hg, hs] at h

theorem parseAgentSpec_err_inv {r : Except String JsValue} {e : SpecParseError}
    (h : parseAgentSpec r = .error e) :
    (∃ msg, r = .error msg ∧ e.issues = ["YAML syntax error: " ++ msg])
    ∨ (∃ raw, r = .ok raw ∧ guardRejects raw = true ∧
        e.issues = ["Expected a YAML mapping, got a scalar or empty document"])
    ∨ (∃ raw zs, r = .ok raw ∧ guardRejects raw = false ∧ agentSpecSchema raw = .error zs ∧
        zs ≠ [] ∧ e.issues = formatZodIssues zs) := by
  cases r with
  | error msg =>
      left
      simp only [parseAgentSpec] at h
      cases h
      exact ⟨msg, rfl, rfl⟩
  | ok raw =>
      right
      by_cases hg : guardRejects raw = true
      · left
        simp only [parseAgentSpec, if_pos hg] at h
        cases h
        exact ⟨raw, rfl, hg, rfl⟩
      · right
        cases hs : agentSpecSchema raw with
        | ok s => simp [parseAgentSpec, hg, hs] at h
        | error zs =>
            simp only [parseAgentSpec, if_neg hg, hs] at h
            cases h
            exact ⟨raw, zs, rfl, by simpa using hg, hs, agentSpecSchema_error_ne_nil hs, rfl⟩

theorem joinSep_contains (sep : String) (l : List String) :
    ∀ x ∈ l, ∃ pre post : List Char, (joinSep sep l).data = pre ++ x.data ++ post := by
  induction l with
  | nil =>
      intro x hx
      cases hx
  | cons y ys ih =>
      intro x hx
      cases ys with
      | nil =>
          rw [List.mem_singleton] at hx
          subst hx
          exact ⟨[], [], by simp [joinSep]⟩
      | cons z zs =>
          cases hx with
          | head =>
              exact ⟨[], sep.data ++ (joinSep sep (z :: zs)).data,
                by simp [joinSep, strData_append]⟩
          | tail _ hx' =>
              rcases ih x hx' with ⟨pre, post, hdata⟩
              exact ⟨y.data ++ sep.data ++ pre, post,
                by simp [joinSep, strData_append, hdata, List.append_assoc]⟩

theorem specParseError_message_contains {e : SpecParseError} {i : String}
    (hi : i ∈ e.issues) : strContains e.message i := by
  have hmem : ("  - " ++ i) ∈ e.issues.map (fun j => "  - " ++ j) :=
    List.mem_map_of_mem _ hi
  rcases joinSep_contains "\n" _ _ hmem with ⟨pre, post, hdata⟩
  refine ⟨"Invalid agent spec:\n".data ++ pre ++ "  - ".data, post, ?_⟩
  simp [SpecParseError.message, strData_append, hdata, List.append_assoc]

theorem strContains_append_right (a b needle : String) (h : strContains b needle) :
    strContains (a ++ b) needle := by
  rcases h with ⟨pre, post, hd⟩
  exact ⟨a.data ++ pre, post, by simp [strData_append, hd, List.append_assoc]⟩

theorem models_in_join : ∀ mdl ∈ SUPPORTED_MODELS, strContains (joinSep ", " SUPPORTED_MODELS) mdl := by
  intro mdl hm
  have hJ : joinSep ", " SUPPORTED_MODELS =
      "gemini-2.5-flash, gemini-2.5-pro, gemini-3-flash-preview" := by decide
  rw [hJ]
  simp only [SUPPORTED_MODELS, List.mem_cons, List.not_mem_nil, or_false] at hm
  rcases hm with rfl | rfl | rfl
  · exact ⟨[], ", gemini-2.5-pro, gemini-3-flash-preview".data, by decide⟩
  · exact ⟨"gemini-2.5-flash, ".data, ", gemini-3-flash-preview".data, by decide⟩
  · exact ⟨"gemini-2.5-flash, gemini-2.5-pro, ".data, [], by decide⟩

/-! ## Claim theorems -/

/-- C9: every `SpecParseError` thrown by `parseAgentSpec` (on any input) has a
non-empty `issues` array, and the error's message contains the text of every
entry of that array. -/
theorem c9_issues_nonempty_and_in_message (r : Except String JsValue) (e : SpecParseError)
    (h : parseAgentSpec r = .error e) :
    e.issues ≠ [] ∧ ∀ i ∈ e.issues, strContains e.message i := by
  constructor
  · rcases parseAgentSpec_err_inv h with ⟨msg, _, hi⟩ | ⟨raw, _, _, hi⟩ | ⟨raw, zs, _, _, _, hzs, hi⟩
    · rw [hi]
      simp
    · rw [hi]
      simp
    · rw [hi]
      simp [formatZodIssues, hzs]
  · intro i hi
    exact specParseError_message_contains hi

/-- C9 witness: the theorem applied to a malformed-YAML outcome. -/
theorem c9_witness :
    (["YAML syntax error: boom"] : List String) ≠ [] ∧
    ∀ i ∈ (["YAML syntax error: boom"] : List String),
      strContains (SpecParseError.mk ["YAML syntax error: boom"]).message i :=
  c9_issues_nonempty_and_in_message (.error "boom") ⟨["YAML syntax error: boom"]⟩ rfl

/-- C6: both malformed-YAML and schema failures are signalled by the same
error type (`SpecParseError`, the only error type of `parseAgentSpec`),
distinguished only by message text: a malformed document yields exactly one
issue `YAML syntax error: <message>`, while a schema failure yields issues
that are each rendered by `formatZodIssue`, i.e. prefixed by the offending
field path (or `(root)`). -/
theorem c6_failure_classes :
    (∀ msg : String, parseAgentSpec (.error msg) = .error ⟨["YAML syntax error: " ++ msg]⟩)
    ∧ (∀ (raw : JsValue) (e : SpecParseError), guardRejects raw = false →
        parseAgentSpec (.ok raw) = .error e →
        ∀ i ∈ e.issues, ∃ z : ZodIssue, i = formatZodIssue z) := by
  constructor
  · intro msg
    rfl
  · intro raw e hg h i hi
    rcases parseAgentSpec_err_inv h with ⟨msg, hr, _⟩ | ⟨raw', hr, hgr, _⟩ | ⟨raw', zs, hr, _, _, _, hi2⟩
    · simp at hr
    · cases hr
      rw [hg] at hgr
      cases hgr
    · rw [hi2] at hi
      rcases List.mem_map.mp hi with ⟨z, _, hz⟩
      exact ⟨z, hz.symm⟩

/-- C6 witness: a malformed document and a schema failure (array at the
root), with one of the latter's issues exhibited in path-prefixed form. -/
theorem c6_witness :
    parseAgentSpec (.error "bad") = .error ⟨["YAML syntax error: bad"]⟩ ∧
    (∃ z : ZodIssue, "(root): Expected object, received array" = formatZodIssue z) :=
  ⟨c6_failure_classes.1 "bad",
    c6_failure_classes.2 (.arr []) ⟨["(root): Expected object, received array"]⟩ rfl rfl
      "(root): Expected object, received array" (List.mem_singleton.mpr rfl)⟩

/-- C10 counterexample: on a top-level YAML sequence, `parseAgentSpec` does
throw from the schema stage (not the mapping guard), but with a single
root-level type issue — the issues are not the missing `name`/`model`/
`description` failures the claim describes. -/
theorem c10_counterexample :
    parseAgentSpec (.ok (.arr [.str "a"])) =
      .error ⟨["(root): Expected object, received array"]⟩ ∧
    guardRejects (.arr [.str "a"]) = false ∧
    "name: Required" ∉ (["(root): Expected object, received array"] : List String) := by
  refine ⟨rfl, rfl, ?_⟩
  decide

/-- C10 (amended): a top-level sequence passes the mapping guard (which
rejects only `null`, `undefined` and non-object scalars), and the schema
stage then reports exactly one root-level issue
`(root): Expected object, received array`. -/
theorem c10_sequence_root_type_issue (xs : List JsValue) :
    guardRejects (.arr xs) = false ∧
    parseAgentSpec (.ok (.arr xs)) =
      .error ⟨["(root): Expected object, received array"]⟩ :=
  ⟨rfl, rfl⟩

/-- C1: for a mapping whose `name` is valid and `description` non-empty but
whose `model` is a string outside `SUPPORTED_MODELS`, `parseAgentSpec`
throws a `SpecParseError` with exactly one issue, the `model`-path issue
carrying the custom error-map message, and that message contains every
member of `SUPPORTED_MODELS`; conversely `parseAgentSpec` succeeds only
when the resulting spec's model is a member of `SUPPORTED_MODELS`. -/
theorem c1_unknown_model_reporting (n m d : String)
    (hn : nameMatches n = true) (hd : d ≠ "") (hm : m ∉ SUPPORTED_MODELS) :
    parseAgentSpec (.ok (.obj [("name", .str n), ("model", .str m), ("description", .str d)])) =
      .error ⟨[formatZodIssue ⟨["model"], unknownModelMessage (.str m)⟩]⟩ ∧
    (∀ mdl ∈ SUPPORTED_MODELS,
      strContains (formatZodIssue ⟨["model"], unknownModelMessage (.str m)⟩) mdl) ∧
    (∀ (r : Except String JsValue) (spec : AgentSpec),
      parseAgentSpec r = .ok spec → spec.model ∈ SUPPORTED_MODELS) := by
  have hcont : SUPPORTED_MODELS.contains m = false := by simpa using hm
  have hN : nameField (.str n) = .ok n := nameField_ok hn
  have hD : descriptionField (.str d) = .ok d := descriptionField_ok hd
  have hM : modelField (.str m) = .error [⟨[], unknownModelMessage (.str m)⟩] := modelField_err hcont
  refine ⟨?_, ?_, ?_⟩
  · have hgn : getField [("name", JsValue.str n), ("model", JsValue.str m),
        ("description", JsValue.str d)] "name" = .str n := rfl
    have hgm : getField [("name", JsValue.str n), ("model", JsValue.str m),
        ("description", JsValue.str d)] "model" = .str m := rfl
    have hgd : getField [("name", JsValue.str n), ("model", JsValue.str m),
        ("description", JsValue.str d)] "description" = .str d := rfl
    have hgt : getField [("name", JsValue.str n), ("model", JsValue.str m),
        ("description", JsValue.str d)] "tools" = .undefinedV := rfl
    have hgs : getField [("name", JsValue.str n), ("model", JsValue.str m),
        ("description", JsValue.str d)] "skills" = .undefinedV := rfl
    have hga : getField [("name", JsValue.str n), ("model", JsValue.str m),
        ("description", JsValue.str d)] "acl" = .undefinedV := rfl
    have hschema : agentSpecSchema (.obj [("name", .str n), ("model", .str m),
        ("description", .str d)]) = .error [⟨["model"], unknownModelMessage (.str m)⟩] := by
      simp only [agentSpecSchema, hgn, hgm, hgd, hgt, hgs, hga, hN, hD, hM]
      simp [optionalField, issuesOf, underKey]
    simp [parseAgentSpec, guardRejects, jsTypeof, hschema, formatZodIssues]
  · intro mdl hmem
    have base := models_in_join mdl hmem
    have hsplit : formatZodIssue ⟨["model"], unknownModelMessage (.str m)⟩ =
        ("model" ++ ": ") ++ (("Unknown model \"" ++ m ++ "\". Supported: ") ++
          joinSep ", " SUPPORTED_MODELS) := rfl
    rw [hsplit]
    exact strContains_append_right _ _ _ (strContains_append_right _ _ _ base)
  · intro r spec h
    rcases parseAgentSpec_ok_inv h with ⟨raw, _, _, hs⟩
    rcases agentSpecSchema_ok_inv hs with ⟨fields, _, _, hm', _⟩
    exact modelField_ok_mem hm'

/-- C1 witness: the `model: gpt-5` scenario from the spec. -/
theorem c1_witness :
    nameMatches "helper" = true ∧ "test" ≠ "" ∧ "gpt-5" ∉ SUPPORTED_MODELS ∧
    parseAgentSpec (.ok (.obj [("name", .str "helper"), ("model", .str "gpt-5"),
        ("description", .str "test")])) =
      .error ⟨[formatZodIssue ⟨["model"], unknownModelMessage (.str "gpt-5")⟩]⟩ :=
  ⟨by decide, by decide, by decide,
    (c1_unknown_model_reporting "helper" "gpt-5" "test" (by decide) (by decide) (by decide)).1⟩

/-- C5: when both `name` and `description` are missing, the thrown
`SpecParseError` carries a distinct issue for each of the two violations —
validation does not stop at the first schema failure. -/
theorem c5_collects_all_violations (fields : List (String × JsValue))
    (hn : fields.lookup "name" = none) (hd : fields.lookup "description" = none) :
    parseAgentSpec (.ok (.obj fields)) = .error ⟨formatZodIssues (specFieldIssues fields)⟩ ∧
    "name: Required" ∈ formatZodIssues (specFieldIssues fields) ∧
    "description: Required" ∈ formatZodIssues (specFieldIssues fields) ∧
    "name: Required" ≠ "description: Required" := by
  have hgn : getField fields "name" = .undefinedV := by
    simp [getField, hn]
  have hgd : getField fields "description" = .undefinedV := by
    simp [getField, hd]
  have hN : nameField (getField fields "name") = .error [⟨[], "Required"⟩] := by
    rw [hgn]
    rfl
  have hD : descriptionField (getField fields "description") = .error [⟨[], "Required"⟩] := by
    rw [hgd]
    rfl
  have hschema : agentSpecSchema (.obj fields) = .error (specFieldIssues fields) := by
    simp [agentSpecSchema, specFieldIssues, hN, issuesOf]
  refine ⟨?_, ?_, ?_, by decide⟩
  · simp [parseAgentSpec, guardRejects, jsTypeof, hschema]
  · simp [formatZodIssues, specFieldIssues, hN, hD, issuesOf, underKey, formatZodIssue, joinSep]
  · simp [formatZodIssues, specFieldIssues, hN, hD, issuesOf, underKey, formatZodIssue, joinSep]

/-- C5 witness: a document with only a (valid) `model` key. -/
theorem c5_witness :
    ([("model", JsValue.str "gemini-2.5-flash")] : List (String × JsValue)).lookup "name" = none ∧
    ([("model", JsValue.str "gemini-2.5-flash")] : List (String × JsValue)).lookup "description" = none ∧
    (parseAgentSpec (.ok (.obj [("model", .str "gemini-2.5-flash")])) =
      .error ⟨formatZodIssues (specFieldIssues [("model", .str "gemini-2.5-flash")])⟩ ∧
    "name: Required" ∈ formatZodIssues (specFieldIssues [("model", .str "gemini-2.5-flash")]) ∧
    "description: Required" ∈ formatZodIssues (specFieldIssues [("model", .str "gemini-2.5-flash")]) ∧
    "name: Required" ≠ "description: Required") :=
  ⟨rfl, rfl, c5_collects_all_violations [("model", .str "gemini-2.5-flash")] rfl rfl⟩

/-- C7: with valid `model` and `description`, `parseAgentSpec` accepts the
`name` field exactly when it matches `/^[a-z0-9][a-z0-9-]*$/` (`nameMatches`,
the translation of that regex); names with uppercase letters, spaces or a
leading hyphen are rejected. -/
theorem c7_name_regex (n : String) :
    ((∃ spec : AgentSpec,
        parseAgentSpec (.ok (.obj [("name", .str n), ("model", .str "gemini-2.5-flash"),
          ("description", .str "x")])) = .ok spec ∧ spec.name = n)
      ↔ nameMatches n = true) ∧
    nameMatches "Bad" = false ∧ nameMatches "has space" = false ∧
    nameMatches "-bad" = false ∧ nameMatches "agent-01" = true := by
  refine ⟨⟨?_, ?_⟩, by decide, by decide, by decide, by decide⟩
  · rintro ⟨spec, hok, hname⟩
    rcases parseAgentSpec_ok_inv hok with ⟨raw, hr, _, hs⟩
    cases hr
    rcases agentSpecSchema_ok_inv hs with ⟨fields, hf, hN, _⟩
    cases hf
    rw [show getField [("name", JsValue.str n), ("model", JsValue.str "gemini-2.5-flash"),
      ("description", JsValue.str "x")] "name" = JsValue.str n from rfl] at hN
    rcases nameField_ok_inv hN with ⟨_, hm⟩
    rw [hname] at hm
    exact hm
  · intro hm
    have hN : nameField (.str n) = .ok n := nameField_ok hm
    have hM : modelField (.str "gemini-2.5-flash") = .ok "gemini-2.5-flash" := rfl
    have hD : descriptionField (.str "x") = .ok "x" := rfl
    have hschema : agentSpecSchema (.obj [("name", .str n), ("model", .str "gemini-2.5-flash"),
        ("description", .str "x")]) = .ok ⟨n, "gemini-2.5-flash", "x", none, none, none⟩ := by
      simp only [agentSpecSchema,
        show getField [("name", JsValue.str n), ("model", JsValue.str "gemini-2.5-flash"),
          ("description", JsValue.str "x")] "name" = JsValue.str n from rfl,
        show getField [("name", JsValue.str n), ("model", JsValue.str "gemini-2.5-flash"),
          ("description", JsValue.str "x")] "model" = JsValue.str "gemini-2.5-flash" from rfl,
        show getField [("name", JsValue.str n), ("model", JsValue.str "gemini-2.5-flash"),
          ("description", JsValue.str "x")] "description" = JsValue.str "x" from rfl,
        show getField [("name", JsValue.str n), ("model", JsValue.str "gemini-2.5-flash"),
          ("description", JsValue.str "x")] "tools" = JsValue.undefinedV from rfl,
        show getField [("name", JsValue.str n), ("model", JsValue.str "gemini-2.5-flash"),
          ("description", JsValue.str "x")] "skills" = JsValue.undefinedV from rfl,
        show getField [("name", JsValue.str n), ("model", JsValue.str "gemini-2.5-flash"),
          ("description", JsValue.str "x")] "acl" = JsValue.undefinedV from rfl,
        hN, hM, hD]
      simp [optionalField]
    exact ⟨⟨n, "gemini-2.5-flash", "x", none, none, none⟩,
      by simp [parseAgentSpec, guardRejects, jsTypeof, hschema], rfl⟩

/-- C2 counterexample: `"bogus"` matches none of the three recognized
principal patterns, yet `parseAgentSpec` accepts an otherwise-valid spec
whose acl contains `{principal: "bogus", role: execute}` — refuting the
claim that only pattern-shaped principals are accepted. -/
theorem c2_counterexample :
    specPrincipalPattern "bogus" = false ∧
    parseAgentSpec (.ok (.obj [("name", .str "helper"), ("model", .str "gemini-2.5-flash"),
      ("description", .str "x"),
      ("acl", .arr [.obj [("principal", .str "bogus"), ("role", .str "execute")]])])) =
      .ok ⟨"helper", "gemini-2.5-flash", "x", none, none, some [⟨"bogus", "execute"⟩]⟩ :=
  ⟨by decide, rfl⟩

/-- C2 (amended): `parseAgentSpec` applies no principal-pattern check at
all — an acl entry with role `execute` is accepted exactly when its
principal is a non-empty string. -/
theorem c2_principal_only_nonempty (s : String) :
    (∃ spec : AgentSpec,
        parseAgentSpec (.ok (.obj [("name", .str "helper"), ("model", .str "gemini-2.5-flash"),
          ("description", .str "x"),
          ("acl", .arr [.obj [("principal", .str s), ("role", .str "execute")]])])) = .ok spec ∧
        spec.acl = some [⟨s, "execute"⟩])
      ↔ s ≠ "" := by
  constructor
  · rintro ⟨spec, hok, -⟩
    intro he
    subst he
    rw [show parseAgentSpec (.ok (.obj [("name", .str "helper"),
        ("model", .str "gemini-2.5-flash"), ("description", .str "x"),
        ("acl", .arr [.obj [("principal", .str ""), ("role", .str "execute")]])])) =
        .error ⟨["acl.0.principal: String must contain at least 1 character(s)"]⟩ from rfl] at hok
    cases hok
  · intro hne
    have hP : parseMin1String (.str s) = .ok s := parseMin1String_ok hne
    have hR : enumField ["execute", "read"] (.str "execute") = .ok "execute" := rfl
    have hacl : aclEntrySchema (.obj [("principal", .str s), ("role", .str "execute")]) =
        .ok ⟨s, "execute"⟩ := by
      simp only [aclEntrySchema,
        show getField [("principal", JsValue.str s), ("role", JsValue.str "execute")]
          "principal" = JsValue.str s from rfl,
        show getField [("principal", JsValue.str s), ("role", JsValue.str "execute")]
          "role" = JsValue.str "execute" from rfl, hP, hR]
    have harr : arrayField aclEntrySchema
        (.arr [.obj [("principal", .str s), ("role", .str "execute")]]) =
        .ok [⟨s, "execute"⟩] := by
      simp [arrayField, arrayElems, hacl]
    have hschema : agentSpecSchema (.obj [("name", .str "helper"),
        ("model", .str "gemini-2.5-flash"), ("description", .str "x"),
        ("acl", .arr [.obj [("principal", .str s), ("role", .str "execute")]])]) =
        .ok ⟨"helper", "gemini-2.5-flash", "x", none, none, some [⟨s, "execute"⟩]⟩ := by
      simp only [agentSpecSchema,
        show ∀ key, getField [("name", JsValue.str "helper"),
          ("model", JsValue.str "gemini-2.5-flash"), ("description", JsValue.str "x"),
          ("acl", JsValue.arr [JsValue.obj [("principal", JsValue.str s),
            ("role", JsValue.str "execute")]])] key =
          getField [("name", JsValue.str "helper"),
          ("model", JsValue.str "gemini-2.5-flash"), ("description", JsValue.str "x"),
          ("acl", JsValue.arr [JsValue.obj [("principal", JsValue.str s),
            ("role", JsValue.str "execute")]])] key from fun _ => rfl]
      rw [show getField [("name", JsValue.str "helper"),
          ("model", JsValue.str "gemini-2.5-flash"), ("description", JsValue.str "x"),
          ("acl", JsValue.arr [JsValue.obj [("principal", JsValue.str s),
            ("role", JsValue.str "execute")]])] "acl" =
          JsValue.arr [JsValue.obj [("principal", JsValue.str s),
            ("role", JsValue.str "execute")]] from rfl]
      rw [show nameField (getField [("name", JsValue.str "helper"),
          ("model", JsValue.str "gemini-2.5-flash"), ("description", JsValue.str "x"),
          ("acl", JsValue.arr [JsValue.obj [("principal", JsValue.str s),
            ("role", JsValue.str "execute")]])] "name") = .ok "helper" from rfl]
      rw [show modelField (getField [("name", JsValue.str "helper"),
          ("model", JsValue.str "gemini-2.5-flash"), ("description", JsValue.str "x"),
          ("acl", JsValue.arr [JsValue.obj [("principal", JsValue.str s),
            ("role", JsValue.str "execute")]])] "model") = .ok "gemini-2.5-flash" from rfl]
      rw [show descriptionField (getField [("name", JsValue.str "helper"),
          ("model", JsValue.str "gemini-2.5-flash"), ("description", JsValue.str "x"),
          ("acl", JsValue.arr [JsValue.obj [("principal", JsValue.str s),
            ("role", JsValue.str "execute")]])] "description") = .ok "x" from rfl]
      rw [show optionalField (arrayField toolSchema)
          (getField [("name", JsValue.str "helper"),
          ("model", JsValue.str "gemini-2.5-flash"), ("description", JsValue.str "x"),
          ("acl", JsValue.arr [JsValue.obj [("principal", JsValue.str s),
            ("role", JsValue.str "execute")]])] "tools") = .ok none from rfl]
      rw [show optionalField (arrayField parseMin1String)
          (getField [("name", JsValue.str "helper"),
          ("model", JsValue.str "gemini-2.5-flash"), ("description", JsValue.str "x"),
          ("acl", JsValue.arr [JsValue.obj [("principal", JsValue.str s),
            ("role", JsValue.str "execute")]])] "skills") = .ok none from rfl]
      simp [optionalField, harr, Except.map]
    exact ⟨⟨"helper", "gemini-2.5-flash", "x", none, none, some [⟨s, "execute"⟩]⟩,
      by simp [parseAgentSpec, guardRejects, jsTypeof, hschema], rfl⟩

/-- C3 counterexample: an entry supplying both a `server` and a `name` key
(with valid access) is accepted, parsed as the server form with the `name`
key silently dropped — refuting the claim that such an entry is rejected
and that there are three tagged forms. -/
theorem c3_counterexample :
    parseAgentSpec (.ok (.obj [("name", .str "helper"), ("model", .str "gemini-2.5-flash"),
      ("description", .str "x"),
      ("tools", .arr [.obj [("server", .str "mcp://x"), ("name", .str "local-name"),
        ("access", .str "read")]])])) =
      .ok ⟨"helper", "gemini-2.5-flash", "x", some [.mcpTool "mcp://x" "read"], none, none⟩ :=
  rfl

/-- C3 (amended): `toolSchema` is a union of exactly two tagged forms —
`mcpToolSchema` `{server, access}` and `localToolSchema` `{name, access}`
(there is no third `AgentTool` variant; agent references use the server
form) — and an entry supplying both `server` and `name` keys is accepted as
the server form, the `name` key being ignored. -/
theorem c3_two_forms_both_keys_accepted (server : String) (nameVal : JsValue) (access : String)
    (hs : server ≠ "") (ha : access = "read" ∨ access = "write") :
    toolSchema (.obj [("server", .str server), ("name", nameVal), ("access", .str access)]) =
      .ok (.mcpTool server access) ∧
    (∀ (v : JsValue) (t : ToolEntry), toolSchema v = .ok t →
      (∃ sv ac, t = .mcpTool sv ac) ∨ (∃ nm ac, t = .localTool nm ac)) := by
  constructor
  · have hS : parseMin1String (getField [("server", JsValue.str server), ("name", nameVal),
        ("access", JsValue.str access)] "server") = .ok server := by
      rw [show getField [("server", JsValue.str server), ("name", nameVal),
        ("access", JsValue.str access)] "server" = JsValue.str server from rfl]
      exact parseMin1String_ok hs
    have hA : enumField ["read", "write"] (getField [("server", JsValue.str server),
        ("name", nameVal), ("access", JsValue.str access)] "access") = .ok access := by
      rw [show getField [("server", JsValue.str server), ("name", nameVal),
        ("access", JsValue.str access)] "access" = JsValue.str access from rfl]
      rcases ha with rfl | rfl <;> rfl
    simp [toolSchema, mcpToolSchema, hS, hA]
  · intro v t _
    cases t with
    | mcpTool sv ac => exact Or.inl ⟨sv, ac, rfl⟩
    | localTool nm ac => exact Or.inr ⟨nm, ac, rfl⟩

/-- C3 witness: both-keys entry at concrete values. -/
theorem c3_witness :
    ("mcp://x" : String) ≠ "" ∧ (("read" : String) = "read" ∨ ("read" : String) = "write") ∧
    toolSchema (.obj [("server", .str "mcp://x"), ("name", .str "n"),
      ("access", .str "read")]) = .ok (.mcpTool "mcp://x" "read") :=
  ⟨by decide, Or.inl rfl,
    (c3_two_forms_both_keys_accepted "mcp://x" (.str "n") "read" (by decide) (Or.inl rfl)).1⟩

theorem enumField_access_err {v : JsValue} (h : isValidAccess v = false) :
    ∃ es, enumField ["read", "write"] v = .error es := by
  cases v with
  | str s =>
      simp only [isValidAccess, Bool.or_eq_false_iff] at h
      have h1 : s ≠ "read" := by simpa using h.1
      have h2 : s ≠ "write" := by simpa using h.2
      have hor : ¬(s = "read" ∨ s = "write") := by
        rintro (rfl | rfl)
        · exact h1 rfl
        · exact h2 rfl
      exact ⟨[⟨[], "Invalid enum value. Expected " ++ zodJoinValues ["read", "write"] ++
        ", received '" ++ s ++ "'"⟩], by simp [enumField, hor]⟩
  | nullV => exact ⟨_, rfl⟩
  | undefinedV => exact ⟨_, rfl⟩
  | num n => exact ⟨_, rfl⟩
  | bool b => exact ⟨_, rfl⟩
  | arr xs => exact ⟨_, rfl⟩
  | obj fs => exact ⟨_, rfl⟩

theorem toolSchema_access_err {F : List (String × JsValue)}
    (h : isValidAccess (getField F "access") = false) :
    toolSchema (.obj F) = .error [⟨[], "Invalid input"⟩] := by
  rcases enumField_access_err h with ⟨es, he⟩
  have h1 : ∃ es1, mcpToolSchema (.obj F) = .error es1 := by
    cases hS : parseMin1String (getField F "server") with
    | ok s =>
        exact ⟨underKey "access" es, by simp [mcpToolSchema, hS, he, issuesOf, underKey]⟩
    | error es' =>
        exact ⟨underKey "server" es' ++ underKey "access" es,
          by simp [mcpToolSchema, hS, he, issuesOf, underKey]⟩
  have h2 : ∃ es2, localToolSchema (.obj F) = .error es2 := by
    cases hN : parseMin1String (getField F "name") with
    | ok s =>
        exact ⟨underKey "access" es, by simp [localToolSchema, hN, he, issuesOf, underKey]⟩
    | error es' =>
        exact ⟨underKey "name" es' ++ underKey "access" es,
          by simp [localToolSchema, hN, he, issuesOf, underKey]⟩
  rcases h1 with ⟨es1, h1⟩
  rcases h2 with ⟨es2, h2⟩
  simp [toolSchema, h1, h2]

theorem arrayElems_err_of_mem {α : Type} {p : JsValue → Except (List ZodIssue) α}
    {xs : List JsValue} {x : JsValue} (hx : x ∈ xs)
    (hpx : ∃ es, p x = .error es ∧ es ≠ []) :
    ∀ i, (arrayElems p i xs).1 ≠ [] := by
  induction xs with
  | nil => cases hx
  | cons y ys ih =>
      intro i
      cases hx with
      | head =>
          rcases hpx with ⟨es, hpe, hne⟩
          simp [arrayElems, hpe, underKey, hne]
      | tail _ hx' =>
          have hrest := ih hx' (i + 1)
          cases hpy : p y with
          | ok a => simpa [arrayElems, hpy] using hrest
          | error es => simp [arrayElems, hpy, underKey, hrest]

theorem arrayField_err_of_mem {α : Type} {p : JsValue → Except (List ZodIssue) α}
    {xs : List JsValue} {x : JsValue} (hx : x ∈ xs)
    (hpx : ∃ es, p x = .error es ∧ es ≠ []) :
    ∃ es, arrayField p (.arr xs) = .error es := by
  have hne := arrayElems_err_of_mem hx hpx 0
  refine ⟨(arrayElems p 0 xs).1, ?_⟩
  simp [arrayField, List.isEmpty_iff, hne]

/-- C4: a tools entry whose `access` value is not the string `read` or
`write` (including an omitted `access`) makes `parseAgentSpec` reject the
whole document. -/
theorem c4_access_read_or_write (fields : List (String × JsValue))
    (ts : List JsValue) (F : List (String × JsValue))
    (hts : getField fields "tools" = .arr ts)
    (hmem : JsValue.obj F ∈ ts)
    (hbad : isValidAccess (getField F "access") = false) :
    ∃ e, parseAgentSpec (.ok (.obj fields)) = .error e := by
  have htool : toolSchema (.obj F) = .error [⟨[], "Invalid input"⟩] := toolSchema_access_err hbad
  rcases arrayField_err_of_mem hmem ⟨_, htool, by simp⟩ with ⟨es, he⟩
  have hopt : optionalField (arrayField toolSchema) (getField fields "tools") = .error es := by
    rw [hts]
    simp [optionalField, he, Except.map]
  rcases agentSpecSchema_obj_cases fields with ⟨spec, hok, _, _, _, hT, _⟩ | ⟨es', herr, _⟩
  · rw [hopt] at hT
    cases hT
  · exact ⟨⟨formatZodIssues es'⟩, by simp [parseAgentSpec, guardRejects, jsTypeof, herr]⟩

/-- C4 witness: `access: admin` on a server tool entry. -/
theorem c4_witness :
    getField [("name", JsValue.str "helper"), ("model", JsValue.str "gemini-2.5-flash"),
      ("description", JsValue.str "x"),
      ("tools", JsValue.arr [JsValue.obj [("server", JsValue.str "mcp://example"),
        ("access", JsValue.str "admin")]])] "tools" =
      .arr [JsValue.obj [("server", JsValue.str "mcp://example"),
        ("access", JsValue.str "admin")]] ∧
    JsValue.obj [("server", JsValue.str "mcp://example"), ("access", JsValue.str "admin")] ∈
      [JsValue.obj [("server", JsValue.str "mcp://example"), ("access", JsValue.str "admin")]] ∧
    isValidAccess (getField [("server", JsValue.str "mcp://example"),
      ("access", JsValue.str "admin")] "access") = false ∧
    ∃ e, parseAgentSpec (.ok (.obj [("name", JsValue.str "helper"),
      ("model", JsValue.str "gemini-2.5-flash"), ("description", JsValue.str "x"),
      ("tools", JsValue.arr [JsValue.obj [("server", JsValue.str "mcp://example"),
        ("access", JsValue.str "admin")]])])) = .error e :=
  ⟨rfl, List.mem_singleton.mpr rfl, rfl,
    c4_access_read_or_write _ _ _ rfl (List.mem_singleton.mpr rfl) rfl⟩

theorem lookup_append_unknown {β : Type} {F : List (String × β)} {k key : String} {v : β}
    (h : key ≠ k) : (F ++ [(k, v)]).lookup key = F.lookup key := by
  induction F with
  | nil =>
      have hb : (key == k) = false := beq_eq_false_iff_ne.mpr h
      simp [List.lookup, hb]
  | cons p ps ih =>
      cases p with
      | mk k2 v2 =>
          cases hb : (key == k2) with
          | true => simp [List.lookup, hb]
          | false => simpa [List.lookup, hb] using ih

theorem getField_append_unknown {F : List (String × JsValue)} {k key : String} {v : JsValue}
    (h : key ≠ k) : getField (F ++ [(k, v)]) key = getField F key := by
  unfold getField
  rw [lookup_append_unknown h]

theorem agentSpecSchema_ignores_unknown (fields : List (String × JsValue)) (k : String)
    (v : JsValue)
    (h : k ∉ (["name", "model", "description", "tools", "skills", "acl"] : List String)) :
    agentSpecSchema (.obj (fields ++ [(k, v)])) = agentSpecSchema (.obj fields) := by
  simp only [List.mem_cons, List.not_mem_nil, or_false, not_or] at h
  obtain ⟨h1, h2, h3, h4, h5, h6⟩ := h
  simp only [agentSpecSchema,
    getField_append_unknown (F := fields) (v := v) (Ne.symm h1),
    getField_append_unknown (F := fields) (v := v) (Ne.symm h2),
    getField_append_unknown (F := fields) (v := v) (Ne.symm h3),
    getField_append_unknown (F := fields) (v := v) (Ne.symm h4),
    getField_append_unknown (F := fields) (v := v) (Ne.symm h5),
    getField_append_unknown (F := fields) (v := v) (Ne.symm h6)]

/-- C8: unknown keys — on the top-level mapping, on a tool entry, or on an
acl entry — are silently stripped: validation behaves exactly as if the key
were absent, so the result (and in particular the returned `AgentSpec`,
whose type carries only the recognized fields) omits them and no issue is
ever reported for them. -/
theorem c8_unknown_keys_ignored :
    (∀ (fields : List (String × JsValue)) (k : String) (v : JsValue),
        k ∉ (["name", "model", "description", "tools", "skills", "acl"] : List String) →
        parseAgentSpec (.ok (.obj (fields ++ [(k, v)]))) = parseAgentSpec (.ok (.obj fields)))
    ∧ (∀ (F : List (String × JsValue)) (k : String) (v : JsValue),
        k ∉ (["server", "name", "access"] : List String) →
        toolSchema (.obj (F ++ [(k, v)])) = toolSchema (.obj F))
    ∧ (∀ (F : List (String × JsValue)) (k : String) (v : JsValue),
        k ∉ (["principal", "role"] : List String) →
        aclEntrySchema (.obj (F ++ [(k, v)])) = aclEntrySchema (.obj F)) := by
  refine ⟨?_, ?_, ?_⟩
  · intro fields k v h
    simp only [parseAgentSpec, guardRejects, jsTypeof]
    rw [agentSpecSchema_ignores_unknown fields k v h]
  · intro F k v h
    simp only [List.mem_cons, List.not_mem_nil, or_false, not_or] at h
    obtain ⟨h1, h2, h3⟩ := h
    simp only [toolSchema, mcpToolSchema, localToolSchema,
      getField_append_unknown (F := F) (v := v) (Ne.symm h1),
      getField_append_unknown (F := F) (v := v) (Ne.symm h2),
      getField_append_unknown (F := F) (v := v) (Ne.symm h3)]
  · intro F k v h
    simp only [List.mem_cons, List.not_mem_nil, or_false, not_or] at h
    obtain ⟨h1, h2⟩ := h
    simp only [aclEntrySchema,
      getField_append_unknown (F := F) (v := v) (Ne.symm h1),
      getField_append_unknown (F := F) (v := v) (Ne.symm h2)]

/-- C8 witness: a misspelled key on the top-level mapping, a stray key on a
tool entry, and a stray key on an acl entry all leave parsing unchanged
(and the first document still parses successfully). -/
theorem c8_witness :
    ("descriptoin" ∉ (["name", "model", "description", "tools", "skills", "acl"] : List String)) ∧
    parseAgentSpec (.ok (.obj ([("name", .str "helper"), ("model", .str "gemini-2.5-flash"),
        ("description", .str "x")] ++ [("descriptoin", JsValue.str "oops")]))) =
      parseAgentSpec (.ok (.obj [("name", .str "helper"), ("model", .str "gemini-2.5-flash"),
        ("description", .str "x")])) ∧
    toolSchema (.obj ([("server", .str "mcp://x"), ("access", .str "read")] ++
        [("extra", JsValue.num 1)])) =
      toolSchema (.obj [("server", .str "mcp://x"), ("access", .str "read")]) ∧
    aclEntrySchema (.obj ([("principal", .str "user:a"), ("role", .str "read")] ++
        [("why", JsValue.nullV)])) =
      aclEntrySchema (.obj [("principal", .str "user:a"), ("role", .str "read")]) ∧
    parseAgentSpec (.ok (.obj [("name", .str "helper"), ("model", .str "gemini-2.5-flash"),
        ("description", .str "x")])) =
      .ok ⟨"helper", "gemini-2.5-flash", "x", none, none, none⟩ :=
  ⟨by decide,
    c8_unknown_keys_ignored.1 _ "descriptoin" (.str "oops") (by decide),
    c8_unknown_keys_ignored.2.1 _ "extra" (.num 1) (by decide),
    c8_unknown_keys_ignored.2.2 _ "why" .nullV (by decide),
    rfl⟩

/-- C2 witness: a pattern-shaped principal is (also) accepted, via the
amended theorem at a concrete non-empty principal. -/
theorem c2_witness :
    ∃ spec : AgentSpec,
      parseAgentSpec (.ok (.obj [("name", .str "helper"), ("model", .str "gemini-2.5-flash"),
        ("description", .str "x"),
        ("acl", .arr [.obj [("principal", .str "user:connor"), ("role", .str "execute")]])])) =
        .ok spec ∧
      spec.acl = some [⟨"user:connor", "execute"⟩] :=
  (c2_principal_only_nonempty "user:connor").mpr (by decide)

/-- C7 witness: a regex-conforming name is accepted. -/
theorem c7_witness :
    ∃ spec : AgentSpec,
      parseAgentSpec (.ok (.obj [("name", .str "agent-01"), ("model", .str "gemini-2.5-flash"),
        ("description", .str "x")])) = .ok spec ∧
      spec.name = "agent-01" :=
  (c7_name_regex "agent-01").1.mpr (by decide)

/-- C10 witness: the amended theorem at the empty sequence. -/
theorem c10_witness :
    guardRejects (.arr []) = false ∧
    parseAgentSpec (.ok (.arr [])) =
      .error ⟨["(root): Expected object, received array"]⟩ :=
  c10_sequence_root_type_issue []
